import Mathlib

/-!
# Shallow embedding of the bustub storage core

This file embeds, in Lean, the C++ sources of the repository's storage
core — the extendible-hash bucket and directory pages, the LRU-K
replacer, the buffer pool manager, the disk extendible hash table's
insert loop, and the copy-on-write trie — and proves or refutes the
specification's claims about them.

Machine integers are modelled as `Nat`/`Int`; arrays of the raw page
memory are modelled as total functions `Nat → _` so that the code's
out-of-range reads and writes are observable.  Keys and values of the
hash-table pages are specialised to `Nat` with the three-way integer
comparator (−1/0/+1), matching the `IntComparator` instantiation of the
source.
-/

namespace Bustub

/-- Pointwise function update, used to model an assignment into a raw
array slot. -/
def upd {α : Type} (f : Nat → α) (i : Nat) (v : α) : Nat → α :=
  fun j => if j = i then v else f j

/-- The three-way comparator `cmp` of the source, specialised to `Nat`
keys: −1, 0 or +1 as `Int`. -/
def cmp (a b : Nat) : Int :=
  if a < b then -1 else if a = b then 0 else 1

/-! ## Bucket page (`extendible_htable_bucket_page.cpp`)

`ExtendibleHTableBucketPage` holds `size_`, `max_size_` and the raw
entry array `array_`.  The raw array is a total function: slots at and
beyond `size_` exist in memory (their contents are garbage), exactly as
in the C++ page, so reads past the live prefix are visible in the
model. -/

structure Bucket where
  size : Nat
  maxSize : Nat
  arr : Nat → Nat × Nat

namespace Bucket

/-- The `while(left<right)` loop of `BinSearch`.  The first argument
counts the remaining loop iterations structurally; the interval width
`right − left` shrinks by at least one per iteration, so running the
loop with an initial bound equal to the initial width reproduces the
`while` loop exactly. -/
def binSearchAux (b : Bucket) (key : Nat) : Nat → Nat → Nat → Nat
  | 0, left, _ => left
  | bound + 1, left, right =>
    if left < right then
      let mid := left + (right - left) / 2
      if cmp (b.arr mid).1 key = -1 then
        binSearchAux b key bound (mid + 1) right
      else
        binSearchAux b key bound left mid
    else
      left

/-- `BinSearch(key, cmp)`: lowest index whose key is ≥ `key`, searching
over `[0, size_)`. -/
def binSearch (b : Bucket) (key : Nat) : Nat :=
  binSearchAux b key b.size 0 b.size

/-- `IsFull()`. -/
def isFull (b : Bucket) : Bool := b.size == b.maxSize

/-- `Lookup(key, value, cmp)`: binary search, then one comparison at
the returned index (which the code performs even when that index equals
`size_`). -/
def lookup (b : Bucket) (key : Nat) : Bool :=
  let idx := b.binSearch key
  cmp (b.arr idx).1 key == 0

/-- The insert shift loop `for(int i=idx;i<size_;i++) array_[i+1] =
array_[i];` — sequential forward copies, each reading the slot the
previous iteration may have just written.  The recursion is on the
remaining iteration count `size − i`. -/
def shiftUpGo (arr : Nat → Nat × Nat) (i : Nat) : Nat → Nat → Nat × Nat
  | 0 => arr
  | n + 1 => shiftUpGo (upd arr (i + 1) (arr i)) (i + 1) n

def shiftUpLoop (arr : Nat → Nat × Nat) (i size : Nat) : Nat → Nat × Nat :=
  shiftUpGo arr i (size - i)

/-- `Insert(key, value, cmp)`. -/
def insert (b : Bucket) (key value : Nat) : Bucket × Bool :=
  if b.isFull then (b, false)
  else
    let idx := b.binSearch key
    if cmp (b.arr idx).1 key = 0 then (b, false)
    else
      let arr1 := shiftUpLoop b.arr idx b.size
      let b1 : Bucket := { b with size := b.size + 1, arr := upd arr1 idx (key, value) }
      (b1, true)

/-- The remove shift loop `for(int i=idx;i<size_;i++) array_[i] =
array_[i+1];`, recursing on the remaining iteration count. -/
def shiftDownGo (arr : Nat → Nat × Nat) (i : Nat) : Nat → Nat → Nat × Nat
  | 0 => arr
  | n + 1 => shiftDownGo (upd arr i (arr (i + 1))) (i + 1) n

def shiftDownLoop (arr : Nat → Nat × Nat) (i size : Nat) : Nat → Nat × Nat :=
  shiftDownGo arr i (size - i)

/-- `Remove(key, cmp)`. -/
def remove (b : Bucket) (key : Nat) : Bucket × Bool :=
  let idx := b.binSearch key
  if cmp (b.arr idx).1 key ≠ 0 then (b, false)
  else
    ({ b with size := b.size - 1, arr := shiftDownLoop b.arr idx b.size }, true)

/-- Strictly-increasing-by-key invariant I6 over the live prefix,
phrased with bounded quantifiers so it is decidable on concrete
buckets. -/
def sortedKeys (b : Bucket) : Prop :=
  ∀ j < b.size, ∀ i < j, (b.arr i).1 < (b.arr j).1

instance (b : Bucket) : Decidable b.sortedKeys := by
  unfold sortedKeys
  infer_instance

end Bucket

/-! ## Directory page (`extendible_htable_directory_page.cpp`) -/

structure Directory where
  maxDepth : Nat
  globalDepth : Nat
  localDepths : Nat → Nat
  bucketPageIds : Nat → Int

namespace Directory

/-- `HashToBucketIndex(hash)`. -/
def hashToBucketIndex (d : Directory) (hash : Nat) : Nat :=
  hash &&& ((1 <<< d.globalDepth) - 1)

/-- `GetSplitImageIndex(bucket_idx)` as the source writes it: XOR with
`1 << global_depth_`. -/
def getSplitImageIndex (d : Directory) (bucketIdx : Nat) : Nat :=
  bucketIdx ^^^ (1 <<< d.globalDepth)

/-- `Size()` = `1 << global_depth_`. -/
def size (d : Directory) : Nat := 1 <<< d.globalDepth

/-- One iteration of the `IncrGlobalDepth` loop: copy slot `i`'s bucket
page id and local depth into slot `GetSplitImageIndex(i)`. -/
def copySlot (d : Directory) (i : Nat) : Directory :=
  { d with
    bucketPageIds := upd d.bucketPageIds (d.getSplitImageIndex i) (d.bucketPageIds i),
    localDepths := upd d.localDepths (d.getSplitImageIndex i) (d.localDepths i) }

/-- The `for(size_t i=0;i<Size();i++)` loop of `IncrGlobalDepth`,
applied to indices `0, 1, …, n−1` in program order. -/
def incrLoop (d : Directory) : Nat → Directory
  | 0 => d
  | n + 1 => (incrLoop d n).copySlot n

/-- `IncrGlobalDepth()`: run the copy loop over the live slots, then
increment `global_depth_`. -/
def incrGlobalDepth (d : Directory) : Directory :=
  let d1 := d.incrLoop d.size
  { d1 with globalDepth := d.globalDepth + 1 }

/-- `IncrLocalDepth(bucket_idx)`. -/
def incrLocalDepth (d : Directory) (bucketIdx : Nat) : Directory :=
  { d with localDepths := upd d.localDepths bucketIdx (d.localDepths bucketIdx + 1) }

end Directory

/-! ## LRU-K replacer (`lru_k_replacer.cpp`)

The `.cpp` file maintains `node_store_` (frame → node), the ordering
list `listRecentKth_` (front = `begin()`), the boundary iterator
`endInfIt_` and the counter `curr_size_`.  The boundary iterator is
modelled as the frame id of the element it designates (`none` =
`end()`); list iterators in C++ remain attached to their element across
`splice`, which the model mirrors by tracking the pointee. -/

/-- Modelled from the spec: `LRUKNode` is declared in the missing
header `lru_k_replacer.h`; per the data model it carries an
access-history ring of size ≤ k (newest first) and an `is_evictable`
flag (new frames start non-evictable). -/
structure LRUKNode where
  history : List Nat
  isEvictable : Bool

/-- Modelled from the spec: `LRUKNode::saveHistory` is declared in the
missing header.  It stamps the newest timestamp into the ring (keeping
at most `k` entries, newest first) and reports whether the node now has
`k` recorded accesses, which the `.cpp` uses to decide a splice to the
tail of the finite group ("If newest node got k historical access, put
to the end"). -/
def saveHistory (k : Nat) (node : LRUKNode) (ts : Nat) : LRUKNode × Bool :=
  let h := (ts :: node.history).take k
  ({ node with history := h }, decide (k ≤ h.length))

structure LRUK where
  k : Nat
  replacerSize : Nat
  currentTimestamp : Nat
  nodeStore : List (Nat × LRUKNode)
  order : List Nat
  endInf : Option Nat
  currSize : Int

namespace LRUK

def findNode (s : LRUK) (f : Nat) : Option LRUKNode :=
  (s.nodeStore.find? (fun p => p.1 == f)).map (fun p => p.2)

def setNode (store : List (Nat × LRUKNode)) (f : Nat) (n : LRUKNode) :
    List (Nat × LRUKNode) :=
  store.map (fun p => if p.1 = f then (f, n) else p)

def eraseNode (store : List (Nat × LRUKNode)) (f : Nat) : List (Nat × LRUKNode) :=
  store.filter (fun p => p.1 ≠ f)

/-- `std::next(it)` for the element `f` of the list: the following
element, or `none` for `end()`. -/
def nextAfter (f : Nat) : List Nat → Option Nat
  | [] => none
  | x :: xs => if x = f then xs.head? else nextAfter f xs

/-- `splice(list.end(), list, it_f)`: move `f` to the back. -/
def moveToEnd (f : Nat) (order : List Nat) : List Nat :=
  order.erase f ++ [f]

def insertBefore (f g : Nat) : List Nat → List Nat
  | [] => [f]
  | x :: xs => if x = g then f :: x :: xs else x :: insertBefore f g xs

/-- `splice(endInfIt_, list, it_f)`: move `f` to just before the
element `endInfIt_` designates (no-op when they coincide; to the back
when `endInfIt_` is `end()`). -/
def moveBefore (f : Nat) (target : Option Nat) (order : List Nat) : List Nat :=
  match target with
  | none => order.erase f ++ [f]
  | some g => if g = f then order else insertBefore f g (order.erase f)

/-- Fresh replacer: empty list, `endInfIt_ = end()`, timestamp 0. -/
def new (numFrames k : Nat) : LRUK :=
  { k := k, replacerSize := numFrames, currentTimestamp := 0,
    nodeStore := [], order := [], endInf := none, currSize := 0 }

/-- `RecordAccess(frame_id)`. -/
def recordAccess (s : LRUK) (f : Nat) : LRUK :=
  let s := { s with currentTimestamp := s.currentTimestamp + 1 }
  let s :=
    if (s.findNode f).isNone then
      { s with nodeStore := s.nodeStore ++ [(f, ⟨[], false⟩)],
               order := s.order ++ [f] }
    else s
  let node := (s.findNode f).getD ⟨[], false⟩
  let sh := saveHistory s.k node s.currentTimestamp
  let s := { s with nodeStore := setNode s.nodeStore f sh.1 }
  if sh.2 then
    let endInf' := if s.endInf = some f then nextAfter f s.order else s.endInf
    { s with endInf := endInf', order := moveToEnd f s.order }
  else
    { s with order := moveBefore f s.endInf s.order }

/-- `SetEvictable(frame_id, set_evictable)`. -/
def setEvictable (s : LRUK) (f : Nat) (b : Bool) : LRUK :=
  match s.findNode f with
  | none => s
  | some node =>
    let source : Int := if node.isEvictable then 1 else 0
    let target : Int := if b then 1 else 0
    { s with nodeStore := setNode s.nodeStore f { node with isEvictable := b },
             currSize := s.currSize + target - source }

/-- `Evict(frame_id)`: scan the list front-to-back for the first
evictable frame; forget it.  Returns `none` when the scan reaches
`end()`. -/
def evict (s : LRUK) : Option Nat × LRUK :=
  match s.order.find? (fun f => ((s.findNode f).getD ⟨[], false⟩).isEvictable) with
  | none => (none, s)
  | some f =>
    let endInf' := if s.endInf = some f then nextAfter f s.order else s.endInf
    (some f,
     { s with endInf := endInf', order := s.order.erase f,
              nodeStore := eraseNode s.nodeStore f, currSize := s.currSize - 1 })

/-- `Remove(frame_id)`.  (`BUSTUB_ASSERT(is_evictable)` aborts the
process on a non-evictable tracked frame; the traces below only remove
evictable frames, where the source proceeds as modelled.) -/
def removeFrame (s : LRUK) (f : Nat) : LRUK :=
  match s.findNode f with
  | none => s
  | some _ =>
    let endInf' := if s.endInf = some f then nextAfter f s.order else s.endInf
    { s with endInf := endInf', order := s.order.erase f,
             nodeStore := eraseNode s.nodeStore f, currSize := s.currSize - 1 }

end LRUK

/-! ## Buffer pool manager (`buffer_pool_manager.cpp`)

Frames are indices into the page array; the page array is a total
function so that `DeletePage`'s write at index `page_id` is observable
wherever it lands.  Disk contents are an unchanging function from page
id to an abstract data word (the write-back path of `FlushPage` is not
inspected by any claim); a page's byte buffer is the single abstract
word `data`, with `ResetMemory()` setting it to 0. -/

/-- One element of the `pages_` array.  Modelled from the spec: the
`Page` class lives in a missing header; a fresh page holds the invalid
page id −1, pin count 0, a clear dirty flag and zeroed memory. -/
structure PageFrame where
  pageId : Int
  pinCount : Nat
  isDirty : Bool
  data : Nat

structure BPM where
  poolSize : Nat
  pages : Nat → PageFrame
  freeList : List Nat
  pageTable : List (Int × Nat)
  nextPageId : Int
  replacer : LRUK
  disk : Int → Nat

namespace BPM

def lookupPT (pt : List (Int × Nat)) (pid : Int) : Option Nat :=
  (pt.find? (fun p => p.1 == pid)).map (fun p => p.2)

def insertPT (pt : List (Int × Nat)) (pid : Int) (frame : Nat) : List (Int × Nat) :=
  if (lookupPT pt pid).isSome then pt.map (fun p => if p.1 = pid then (pid, frame) else p)
  else pt ++ [(pid, frame)]

def erasePT (pt : List (Int × Nat)) (pid : Int) : List (Int × Nat) :=
  pt.filter (fun p => p.1 ≠ pid)

/-- A fresh pool: every frame on the free list, empty page table. -/
def new (poolSize replacerK : Nat) (disk : Int → Nat) : BPM :=
  { poolSize := poolSize,
    pages := fun _ => ⟨-1, 0, false, 0⟩,
    freeList := List.range poolSize,
    pageTable := [],
    nextPageId := 0,
    replacer := LRUK.new poolSize replacerK,
    disk := disk }

/-- `FlushPage(page_id)`: false when not resident; otherwise schedule
the write (not inspected here) and clear the dirty flag. -/
def flushPage (s : BPM) (pid : Int) : BPM × Bool :=
  match lookupPT s.pageTable pid with
  | none => (s, false)
  | some frame =>
    ({ s with pages := upd s.pages frame { s.pages frame with isDirty := false } }, true)

/-- Shared victim-frame choice: free list first, else `Evict`. -/
def pickFrame (s : BPM) : BPM × Option Nat :=
  match s.freeList with
  | f :: rest => ({ s with freeList := rest }, some f)
  | [] =>
    match s.replacer.evict with
    | (none, r) => ({ s with replacer := r }, none)
    | (some f, r) => ({ s with replacer := r }, some f)

/-- `NewPage(page_id)`: returns the chosen frame and the allocated page
id, or `none` for a null result. -/
def newPage (s : BPM) : BPM × Option (Nat × Int) :=
  match s.pickFrame with
  | (s, none) => (s, none)
  | (s, some frame) =>
    let newPid := s.nextPageId
    let s := { s with nextPageId := s.nextPageId + 1,
                      pageTable := insertPT s.pageTable newPid frame }
    let s := { s with replacer := (s.replacer.recordAccess frame).setEvictable frame false }
    let oldId := (s.pages frame).pageId
    let s :=
      if oldId ≠ -1 then
        let s1 := (s.flushPage oldId).1
        { s1 with pageTable := erasePT s1.pageTable oldId }
      else s
    let s := { s with pages := upd s.pages frame ⟨newPid, 1, true, 0⟩ }
    (s, some (frame, newPid))

/-- `FetchPage(page_id)`: resident hit increments the pin count (and
nothing else); a miss stages a frame as in `NewPage`, reads the bytes
from disk and installs them with pin 1 and a clear dirty flag. -/
def fetchPage (s : BPM) (pid : Int) : BPM × Option Nat :=
  match lookupPT s.pageTable pid with
  | some frame =>
    let pg := s.pages frame
    ({ s with pages := upd s.pages frame { pg with pinCount := pg.pinCount + 1 } },
     some frame)
  | none =>
    match s.pickFrame with
    | (s, none) => (s, none)
    | (s, some frame) =>
      let s := { s with pageTable := insertPT s.pageTable pid frame }
      let s := { s with replacer := (s.replacer.recordAccess frame).setEvictable frame false }
      let buf := s.disk pid
      let oldId := (s.pages frame).pageId
      let s :=
        if oldId ≠ -1 then
          let s1 := (s.flushPage oldId).1
          { s1 with pageTable := erasePT s1.pageTable oldId }
        else s
      let s := { s with pages := upd s.pages frame ⟨pid, 1, false, buf⟩ }
      (s, some frame)

/-- `UnpinPage(page_id, is_dirty)`. -/
def unpinPage (s : BPM) (pid : Int) (isDirty : Bool) : BPM × Bool :=
  match lookupPT s.pageTable pid with
  | none => (s, false)
  | some frame =>
    let pg := s.pages frame
    if pg.pinCount = 0 then (s, false)
    else
      let pin' := pg.pinCount - 1
      let r' := if pin' = 0 then s.replacer.setEvictable frame true else s.replacer
      ({ s with replacer := r',
                pages := upd s.pages frame { pg with pinCount := pin', isDirty := isDirty } },
       true)

/-- `DeletePage(page_id)`: on a resident unpinned page the source
removes the frame from the replacer, pushes it on the free list and
calls `pages_[page_id].ResetMemory()` — indexing the page array by the
page id; it never erases the page-table entry, and it returns `true`
when the page id is not resident at all. -/
def deletePage (s : BPM) (pid : Int) : BPM × Bool :=
  match lookupPT s.pageTable pid with
  | some frame =>
    if (s.pages frame).pinCount > 0 then (s, false)
    else
      let s := { s with replacer := s.replacer.removeFrame frame,
                        freeList := s.freeList ++ [frame] }
      let idx := pid.toNat
      ({ s with pages := upd s.pages idx { s.pages idx with data := 0 } }, true)
  | none => (s, true)

end BPM

/-! ## Disk extendible hash table: the `Insert` full-bucket loop
(`disk_extendible_hash_table.cpp`, both drafts)

Both drafts share the same loop: while the target bucket is full,
`IncrLocalDepth(buc_ind)` on the directory, recompute
`buc_ind = HashToBucketIndex(hash)` and
`buc_page_id_ = GetBucketPageId(buc_ind)`, create a new bucket and
break if that id is 0, otherwise re-fetch and re-test; after the loop
the result of the bucket-level `Insert` is discarded and the function
returns `true`.  Neither draft ever calls `IncrGlobalDepth`, consults
`directory_max_depth_`, or returns `false` past the guard-setup stage.
The loop is modelled with explicit fuel; `none` means the iteration
count was exhausted without the loop exiting. -/

/-- The `while(buc_page->IsFull())` loop of `DiskExtendibleHashTable
::Insert` together with the statements that follow it.  `buckets` maps
a bucket page id to its page.  The returned `Bool` is `Insert`'s return
value; the `buc_page_id_ == 0` branch stands for the
`InsertToNewBucket` + `break` path, after which the function also
returns `true`. -/
def insertFullLoop (buckets : Int → Bucket) (dir : Directory) (hash key value : Nat)
    (bucInd : Nat) (bucPageId : Int) : Nat → Option Bool
  | 0 => none
  | fuel + 1 =>
    if (buckets bucPageId).isFull then
      let dir' := dir.incrLocalDepth bucInd
      let bucInd' := dir'.hashToBucketIndex hash
      let bucPageId' := dir'.bucketPageIds bucInd'
      if bucPageId' = 0 then some true
      else insertFullLoop buckets dir' hash key value bucInd' bucPageId' fuel
    else
      some true

/-! ## Copy-on-write trie (`trie.cpp`)

`Put`, `Remove` and `GetOne` manipulate `shared_ptr`-linked nodes and
clone them; the aliasing between a clone the loop keeps in `curr` and
the distinct clone it stores into the parent is essential to the
observed behaviour, so nodes live in an explicit heap (addresses are
allocation indices) and child pointers may be stored null, as
`Remove` leaves them.  Key characters and values are `Nat`.  A `none`
result of an operation marks a null-pointer dereference or
out-of-range `key.back()` — executions that are undefined in the
C++. -/

/-- Modelled from the spec: `TrieNode` / `TrieNodeWithValue` are
declared in the missing header `trie.h`; a node is a mapping from
character to shared child, optionally holding a value.  A child entry
that is present but null models a `shared_ptr` that was assigned
`nullptr`. -/
structure TrieNode where
  children : List (Nat × Option Nat)
  val : Option Nat

abbrev Heap := List TrieNode

namespace Trie0

def heapGet (h : Heap) (a : Nat) : Option TrieNode := h.get? a

def alloc (h : Heap) (n : TrieNode) : Heap × Nat := (h ++ [n], h.length)

/-- `children_.find(c)`: `none` = not found, `some none` = an entry
holding a null pointer, `some (some b)` = an entry pointing at `b`. -/
def childLookup (children : List (Nat × Option Nat)) (c : Nat) : Option (Option Nat) :=
  (children.find? (fun p => p.1 == c)).map (fun p => p.2)

/-- `children_[c] = ptr`: replace the entry or insert one. -/
def childSet (children : List (Nat × Option Nat)) (c : Nat) (ptr : Option Nat) :
    List (Nat × Option Nat) :=
  if (childLookup children c).isSome then
    children.map (fun p => if p.1 = c then (c, ptr) else p)
  else children ++ [(c, ptr)]

/-- `node->Clone()`: allocate a shallow copy (children shared, value
kept). -/
def clone (h : Heap) (a : Nat) : Option (Heap × Nat) :=
  (heapGet h a).map (fun n => alloc h n)

/-- Mutate node `a`'s child map: `a->children_[c] = ptr`. -/
def setChild (h : Heap) (a c : Nat) (ptr : Option Nat) : Heap :=
  match heapGet h a with
  | none => h
  | some n => h.set a { n with children := childSet n.children c ptr }

/-- `Trie::GetOne(node, c)`: if the child map has no entry, return a
null result; otherwise clone the child and return the clone.  A stored
null pointer makes `children_[c]->Clone()` dereference null. -/
def getOne (h : Heap) (a c : Nat) : Option (Heap × Option Nat) :=
  match heapGet h a with
  | none => none
  | some n =>
    match childLookup n.children c with
    | none => some (h, none)
    | some none => none
    | some (some b) => (clone h b).map (fun r => (r.1, some r.2))

structure Trie where
  heap : Heap
  root : Nat

/-- The loop of `Trie::Get`: follow `GetOne`, returning a null result
as a clean miss; at the end of the key the node's value component is
the answer (`dynamic_cast` fails on a valueless node). -/
def getLoop (h : Heap) (cur : Nat) : List Nat → Option (Option Nat)
  | [] => (heapGet h cur).map (fun n => n.val)
  | c :: cs =>
    match getOne h cur c with
    | none => none
    | some (_, none) => some none
    | some (h', some b) => getLoop h' b cs

/-- `Trie::Get(key)`: outer `none` = undefined execution; `some none` =
the miss result; `some (some v)` = a value. -/
def get (t : Trie) (key : List Nat) : Option (Option Nat) :=
  match clone t.heap t.root with
  | none => none
  | some (h, cur) => getLoop h cur key

/-- The loop of `Trie::Put`: `parent := curr`; `curr := GetOne(parent,
c)` (a clone); a missing child is replaced by a fresh node stored in
the parent, an existing one is cloned *again* and the second clone is
stored, while `curr` keeps the first clone. -/
def putLoop (h : Heap) (parent : Option Nat) (cur : Nat) :
    List Nat → Option (Heap × Option Nat × Nat)
  | [] => some (h, parent, cur)
  | c :: rest =>
    match getOne h cur c with
    | none => none
    | some (h1, none) =>
      let al := alloc h1 ⟨[], none⟩
      putLoop (setChild al.1 cur c (some al.2)) (some cur) al.2 rest
    | some (h1, some a1) =>
      match clone h1 a1 with
      | none => none
      | some (h2, a2) =>
        putLoop (setChild h2 cur c (some a2)) (some cur) a1 rest

/-- `Trie::Put(key, value)`: clone the root, run the loop, then attach
a fresh value node carrying `curr`'s children under
`parent->children_[key.back()]`.  An empty key dereferences the null
`parent` and calls `key.back()` on an empty key: undefined (`none`). -/
def put (t : Trie) (key : List Nat) (v : Nat) : Option Trie :=
  match clone t.heap t.root with
  | none => none
  | some (h, newroot) =>
    match putLoop h none newroot key with
    | none => none
    | some (h, parentOpt, cur) =>
      match parentOpt, key.getLast? with
      | some p, some back =>
        match heapGet h cur with
        | none => none
        | some curNode =>
          let al := alloc h ⟨curNode.children, some v⟩
          some ⟨setChild al.1 p back (some al.2), newroot⟩
      | _, _ => none

/-- The loop of `Trie::Remove`: like `Put`'s, but a missing child makes
the whole call return the original trie. -/
def removeLoop (h : Heap) (parent : Option Nat) (cur : Nat) :
    List Nat → Option (Option (Heap × Option Nat × Nat))
  | [] => some (some (h, parent, cur))
  | c :: rest =>
    match getOne h cur c with
    | none => none
    | some (_, none) => some none
    | some (h1, some a1) =>
      match clone h1 a1 with
      | none => none
      | some (h2, a2) =>
        removeLoop (setChild h2 cur c (some a2)) (some cur) a1 rest

/-- `Trie::Remove(key)`: at the terminal, keep only the `TrieNode` view
of its children; a childless terminal is replaced in its parent's map
by a stored null pointer (`children_[key.back()] = nullptr`). -/
def remove (t : Trie) (key : List Nat) : Option Trie :=
  match clone t.heap t.root with
  | none => none
  | some (h, newroot) =>
    match removeLoop h none newroot key with
    | none => none
    | some none => some t
    | some (some (h, parentOpt, cur)) =>
      match parentOpt, key.getLast? with
      | some p, some back =>
        match heapGet h cur with
        | none => none
        | some curNode =>
          let al := alloc h ⟨curNode.children, none⟩
          if curNode.children ≠ [] then
            some ⟨setChild al.1 p back (some al.2), newroot⟩
          else
            some ⟨setChild al.1 p back none, newroot⟩
      | _, _ => none

/-- Modelled from the spec: the freshly constructed `Trie` (header
`trie.h` is missing) is a shared root; the root starts as a childless,
valueless node. -/
def empty : Trie := ⟨[⟨[], none⟩], 0⟩

end Trie0

/-! ## Concrete states used by the verdicts -/

/-- A sorted bucket `[(1,10), (3,30), (5,50)]` with room for one more
entry; garbage `(0,0)` beyond the live prefix. -/
def b34 : Bucket :=
  { size := 3, maxSize := 4,
    arr := fun i => if i = 0 then (1, 10) else if i = 1 then (3, 30)
                    else if i = 2 then (5, 50) else (0, 0) }

/-- An empty bucket whose raw slot 0 happens to hold the key 5 as
garbage. -/
def bEmptyGarbage : Bucket :=
  { size := 0, maxSize := 2, arr := fun _ => (5, 99) }

/-- A directory with `global_depth = 1` whose two live slots hold
distinct buckets at local depth 1. -/
def dSplit : Directory :=
  { maxDepth := 3, globalDepth := 1,
    localDepths := fun i => if i < 2 then 1 else 0,
    bucketPageIds := fun i => if i = 0 then 7 else if i = 1 then 8 else 0 }

/-- A full one-entry bucket (`max_size = 1`). -/
def fullB1 : Bucket := { size := 1, maxSize := 1, arr := fun _ => (9, 90) }

/-- The hash-table state of C3's failing input: `directory_max_depth =
0`, `global_depth = 0`, the single live slot pointing at bucket page 1,
with an arbitrary local-depth assignment `lds` (so that the insert
loop's repeated `IncrLocalDepth` writes stay expressible). -/
def dirC3 (lds : Nat → Nat) : Directory :=
  { maxDepth := 0, globalDepth := 0, localDepths := lds,
    bucketPageIds := fun _ => 1 }

/-- Replacer trace of C2's failing input: `k = 2`, `num_frames = 2`,
accesses `0, 0, 1`, then both frames made evictable. -/
def r2trace : LRUK :=
  ((((LRUK.new 2 2).recordAccess 0).recordAccess 0).recordAccess 1
    |>.setEvictable 0 true).setEvictable 1 true

/-- A one-frame pool (`k = 2`) over an all-zero disk. -/
def s0bpm : BPM := BPM.new 1 2 (fun _ => 0)

/-- After `NewPage` → page 0 on frame 0 (pin 1, dirty). -/
def s1bpm : BPM := s0bpm.newPage.1

/-- After `UnpinPage(0, false)`: pin 0, frame 0 evictable. -/
def s2bpm : BPM := (s1bpm.unpinPage 0 false).1

/-- After `FetchPage(0)` (resident hit): pin 1 again. -/
def s3bpm : BPM := (s2bpm.fetchPage 0).1

/-- A two-frame pool whose disk holds `100 + page_id` in each page. -/
def t0bpm : BPM := BPM.new 2 2 (fun pid => (100 + pid).toNat)

/-- `NewPage` twice (pages 0, 1 on frames 0, 1), then unpin page 0. -/
def t3bpm : BPM :=
  ((t0bpm.newPage.1.newPage.1).unpinPage 0 false).1

/-- `DeletePage(0)` on `t3bpm`. -/
def t4del : BPM × Bool := t3bpm.deletePage 0

/-- Fetch page 5 (it lands on the freed frame 0 with data 105), unpin
it, and delete it; the deletion indexes the page array at 5. -/
def t7del : BPM × Bool :=
  (((t4del.1.fetchPage 5).1.unpinPage 5 false).1).deletePage 5

/-- A directory with `global_depth = 1 < max_depth = 2` for the C6
witness. -/
def dC6 : Directory :=
  { maxDepth := 2, globalDepth := 1,
    localDepths := fun i => if i = 0 then 1 else if i = 1 then 1 else 0,
    bucketPageIds := fun i => if i = 0 then 11 else if i = 1 then 12 else 0 }

/-! ## Bit-arithmetic helper lemmas -/

theorem xor_two_pow_eq_or {g i : Nat} (h : i < 2 ^ g) :
    i ^^^ 2 ^ g = i ||| 2 ^ g := by
  apply Nat.eq_of_testBit_eq
  intro j
  rcases eq_or_ne j g with rfl | hj
  · simp [Nat.testBit_xor, Nat.testBit_lor, Nat.testBit_two_pow_self,
      Nat.testBit_lt_two_pow h]
  · simp [Nat.testBit_xor, Nat.testBit_lor, Nat.testBit_two_pow_of_ne (Ne.symm hj)]

theorem two_pow_le_xor_two_pow {g i : Nat} (h : i < 2 ^ g) :
    2 ^ g ≤ i ^^^ 2 ^ g := by
  apply Nat.testBit_implies_ge
  simp [Nat.testBit_xor, Nat.testBit_two_pow_self, Nat.testBit_lt_two_pow h]

theorem xor_two_pow_inj {g i j : Nat} (h : i ^^^ 2 ^ g = j ^^^ 2 ^ g) : i = j := by
  have h2 := congrArg (fun x => x ^^^ 2 ^ g) h
  simpa [Nat.xor_assoc, Nat.xor_self, Nat.xor_zero] using h2

/-! ## Lemmas about the `IncrGlobalDepth` copy loop -/

theorem incrLoop_globalDepth (d : Directory) (n : Nat) :
    (d.incrLoop n).globalDepth = d.globalDepth := by
  induction n with
  | zero => rfl
  | succ n ih => simp [Directory.incrLoop, Directory.copySlot, ih]

theorem incrLoop_untouched (d : Directory) (n : Nat) (hn : n ≤ 2 ^ d.globalDepth)
    (m : Nat) (hm : m < 2 ^ d.globalDepth) :
    (d.incrLoop n).bucketPageIds m = d.bucketPageIds m ∧
    (d.incrLoop n).localDepths m = d.localDepths m := by
  induction n with
  | zero => exact ⟨rfl, rfl⟩
  | succ n ih =>
    have hn' : n ≤ 2 ^ d.globalDepth := Nat.le_of_succ_le hn
    have hlt : n < 2 ^ d.globalDepth := hn
    have htgt : 2 ^ d.globalDepth ≤ n ^^^ 2 ^ d.globalDepth := two_pow_le_xor_two_pow hlt
    have hne : m ≠ n ^^^ 2 ^ d.globalDepth := by omega
    have hgd := incrLoop_globalDepth d n
    simp only [Directory.incrLoop, Directory.copySlot, Directory.getSplitImageIndex,
      upd, hgd, Nat.one_shiftLeft]
    simp only [if_neg hne]
    exact ih hn'

theorem incrLoop_image (d : Directory) (n : Nat) (hn : n ≤ 2 ^ d.globalDepth)
    (i : Nat) (hi : i < n) :
    (d.incrLoop n).bucketPageIds (i ^^^ 2 ^ d.globalDepth) = d.bucketPageIds i ∧
    (d.incrLoop n).localDepths (i ^^^ 2 ^ d.globalDepth) = d.localDepths i := by
  induction n with
  | zero => omega
  | succ n ih =>
    have hn' : n ≤ 2 ^ d.globalDepth := Nat.le_of_succ_le hn
    have hgd := incrLoop_globalDepth d n
    rcases Nat.lt_succ_iff_lt_or_eq.mp hi with hi' | rfl
    · have hne : i ^^^ 2 ^ d.globalDepth ≠ n ^^^ 2 ^ d.globalDepth := by
        intro h
        exact absurd (xor_two_pow_inj h) (by omega)
      simp only [Directory.incrLoop, Directory.copySlot, Directory.getSplitImageIndex,
        upd, hgd, Nat.one_shiftLeft]
      simp only [if_neg hne]
      exact ih hn' hi'
    · have hun := incrLoop_untouched d i hn' i (Nat.lt_of_succ_le hn)
      simp only [Directory.incrLoop, Directory.copySlot, Directory.getSplitImageIndex,
        upd, hgd, Nat.one_shiftLeft]
      simpa using hun

/-- C6: for a directory with `global_depth = g` below `max_depth`,
`IncrGlobalDepth` copies, for every `i < 2^g`, slot `i`'s bucket page
id and local depth into slot `i ||| (1 << g)`, leaves every slot below
`2^g` unchanged, and increments the global depth to `g + 1`. -/
theorem C6_incrGlobalDepth_doubles (d : Directory) (h : d.globalDepth < d.maxDepth) :
    (d.incrGlobalDepth).globalDepth = d.globalDepth + 1 ∧
    ∀ i < 2 ^ d.globalDepth,
      (d.incrGlobalDepth).bucketPageIds (i ||| 1 <<< d.globalDepth) = d.bucketPageIds i ∧
      (d.incrGlobalDepth).localDepths (i ||| 1 <<< d.globalDepth) = d.localDepths i ∧
      (d.incrGlobalDepth).bucketPageIds i = d.bucketPageIds i ∧
      (d.incrGlobalDepth).localDepths i = d.localDepths i := by
  constructor
  · simp [Directory.incrGlobalDepth]
  · intro i hi
    have hor : i ||| 2 ^ d.globalDepth = i ^^^ 2 ^ d.globalDepth :=
      (xor_two_pow_eq_or hi).symm
    have himg := incrLoop_image d (2 ^ d.globalDepth) (le_refl _) i hi
    have hun := incrLoop_untouched d (2 ^ d.globalDepth) (le_refl _) i hi
    simp only [Directory.incrGlobalDepth, Directory.size, Nat.one_shiftLeft]
    rw [hor]
    exact ⟨himg.1, himg.2, hun.1, hun.2⟩

/-- Witness for C6 at the concrete directory `dC6` (`g = 1 <
max_depth = 2`) and slot `i = 0`: slot `0 ||| 2 = 2` receives bucket
page id 11 and local depth 1, slot 0 keeps them, and the global depth
becomes 2. -/
theorem C6_incrGlobalDepth_doubles_witness :
    dC6.incrGlobalDepth.globalDepth = 2 ∧
    dC6.incrGlobalDepth.bucketPageIds 2 = 11 ∧
    dC6.incrGlobalDepth.localDepths 2 = 1 ∧
    dC6.incrGlobalDepth.bucketPageIds 0 = 11 ∧
    dC6.incrGlobalDepth.localDepths 0 = 1 := by
  have h := C6_incrGlobalDepth_doubles dC6 (by decide)
  have h0 := h.2 0 (by decide)
  refine ⟨h.1, ?_, ?_, ?_, ?_⟩
  · have := h0.1
    simpa using this
  · have := h0.2.1
    simpa using this
  · simpa using h0.2.2.1
  · simpa using h0.2.2.2

/-! ## Verdicts on the remaining claims -/

/-- C1: refuted on the code.  In the one-frame pool, after `NewPage`
(page 0, pin 1), `UnpinPage(0,false)` (pin 0, frame evictable) and a
resident-hit `FetchPage(0)` (pin back to 1), page 0 is resident with
positive pin count and yet `Evict` returns its frame: the hit path of
`FetchPage` increments the pin but never calls
`SetEvictable(frame,false)`. -/
theorem C1_fetch_hit_leaves_frame_evictable :
    BPM.lookupPT s3bpm.pageTable 0 = some 0 ∧
    (s3bpm.pages 0).pinCount = 1 ∧
    s3bpm.replacer.evict.1 = some 0 := by
  decide

/-- C2: refuted on the code.  With `k = 2`, after accesses `0, 0, 1`
frame 0 has two recorded accesses while frame 1 has only one (infinite
backward-K distance); with both evictable, `Evict` must return frame 1,
but the code returns frame 0: when the first frame reaches `k` accesses
while `endInfIt_` is still `end()`, later inf-group frames are spliced
*behind* it, so the front-to-back scan finds the k-full frame first. -/
theorem C2_evicts_finite_frame_before_inf_frame :
    (r2trace.findNode 0).map (fun n => n.history.length) = some 2 ∧
    (r2trace.findNode 1).map (fun n => n.history.length) = some 1 ∧
    (r2trace.findNode 0).map (fun n => n.isEvictable) = some true ∧
    (r2trace.findNode 1).map (fun n => n.isEvictable) = some true ∧
    r2trace.k = 2 ∧
    r2trace.evict.1 = some 0 := by
  decide

/-- C3: refuted on the code.  At a state where the target bucket (page
1) is full and the directory can grow no further (`global_depth =
local_depth = directory_max_depth = 0`), the claim requires `Insert` to
return `false`; instead the full-bucket loop of
`DiskExtendibleHashTable::Insert` — which never calls `IncrGlobalDepth`
nor consults `directory_max_depth_` — recomputes the same bucket index
and page id after each `IncrLocalDepth` and re-enters, for every
iteration bound and every local-depth assignment. -/
theorem C3_insert_full_bucket_never_exits :
    ∀ (lds : Nat → Nat) (fuel : Nat),
      insertFullLoop (fun _ => fullB1) (dirC3 lds) 5 5 55 0 1 fuel = none := by
  intro lds fuel
  induction fuel generalizing lds with
  | zero => rfl
  | succ n ih =>
    have hstep :
        insertFullLoop (fun _ => fullB1) (dirC3 lds) 5 5 55 0 1 (n + 1) =
        insertFullLoop (fun _ => fullB1) (dirC3 (upd lds 0 (lds 0 + 1))) 5 5 55 0 1 n := by
      simp [insertFullLoop, fullB1, Bucket.isFull, dirC3,
        Directory.incrLocalDepth, Directory.hashToBucketIndex]
    rw [hstep]
    exact ih _

/-- C4: refuted on the code.  The bucket `[(1,10),(3,30),(5,50)]` is
strictly increasing and not full; `Insert(2,20)` returns `true`, but
the forward copy `array_[i+1] = array_[i]` propagates slot `idx` over
the tail: the result is `[(1,10),(2,20),(3,30),(3,30)]`, the entry
`(5,50)` is lost and the order is no longer strictly increasing. -/
theorem C4_insert_shift_corrupts_bucket :
    b34.sortedKeys ∧
    2 < b34.size ∧ b34.arr 2 = (5, 50) ∧
    (b34.insert 2 20).2 = true ∧
    (b34.insert 2 20).1.size = 4 ∧
    (b34.insert 2 20).1.arr 1 = (2, 20) ∧
    (b34.insert 2 20).1.arr 2 = (3, 30) ∧
    (b34.insert 2 20).1.arr 3 = (3, 30) ∧
    (∀ i < (b34.insert 2 20).1.size, (b34.insert 2 20).1.arr i ≠ (5, 50)) ∧
    ¬ (b34.insert 2 20).1.sortedKeys := by
  decide

/-- C5: refuted on the code.  In a directory with `global_depth = 1`
and `local_depths[0] = 1`, the claim gives split image `0 XOR (1 <<
(1−1)) = 1`, but `GetSplitImageIndex` XORs with `1 << global_depth_`
and returns 2. -/
theorem C5_split_image_uses_global_depth :
    dSplit.globalDepth = 1 ∧
    dSplit.localDepths 0 = 1 ∧
    dSplit.getSplitImageIndex 0 = 2 ∧
    0 ^^^ (1 <<< (dSplit.localDepths 0 - 1)) = 1 ∧
    dSplit.getSplitImageIndex 0 ≠ 0 ^^^ (1 <<< (dSplit.localDepths 0 - 1)) := by
  decide

/-- C7, counterexample: after `NewPage` the resident page 0 has pin 1
and a set dirty flag; `UnpinPage(0, false)` succeeds but leaves the
dirty flag `false` — the code assigns `is_dirty_ = is_dirty` instead of
OR-ing, so the claim's "never clears a previously set dirty flag" fails
here. -/
theorem C7_unpin_clears_dirty_flag :
    BPM.lookupPT s1bpm.pageTable 0 = some 0 ∧
    (s1bpm.pages 0).pinCount = 1 ∧
    (s1bpm.pages 0).isDirty = true ∧
    (s1bpm.unpinPage 0 false).2 = true ∧
    ((s1bpm.unpinPage 0 false).1.pages 0).isDirty = false := by
  decide

/-- C7, amended: `UnpinPage(page_id, is_dirty)` returns `false` when
the page is not resident or its pin count is already 0; otherwise it
decrements the pin count, *overwrites* the frame's dirty flag with
`is_dirty`, and marks the frame evictable in the replacer exactly when
the pin count reaches 0. -/
theorem C7_unpin_contract (s : BPM) (pid : Int) (d : Bool) :
    (BPM.lookupPT s.pageTable pid = none → s.unpinPage pid d = (s, false)) ∧
    (∀ frame, BPM.lookupPT s.pageTable pid = some frame →
      ((s.pages frame).pinCount = 0 → s.unpinPage pid d = (s, false)) ∧
      (0 < (s.pages frame).pinCount →
        (s.unpinPage pid d).2 = true ∧
        ((s.unpinPage pid d).1.pages frame).pinCount = (s.pages frame).pinCount - 1 ∧
        ((s.unpinPage pid d).1.pages frame).isDirty = d ∧
        (s.unpinPage pid d).1.replacer =
          (if (s.pages frame).pinCount - 1 = 0 then s.replacer.setEvictable frame true
           else s.replacer))) := by
  constructor
  · intro h
    simp [BPM.unpinPage, h]
  · intro frame hf
    constructor
    · intro h0
      simp [BPM.unpinPage, hf, h0]
    · intro hpos
      have h0 : ¬ (s.pages frame).pinCount = 0 := by omega
      simp [BPM.unpinPage, hf, h0, upd]

/-- Witness for C7's amended contract at `s1bpm`, page 0, `is_dirty =
false`: the unpin succeeds, the pin count drops from 1 to 0, the dirty
flag becomes `false`, and the frame is marked evictable. -/
theorem C7_unpin_contract_witness :
    (s1bpm.unpinPage 0 false).2 = true ∧
    ((s1bpm.unpinPage 0 false).1.pages 0).pinCount = 0 ∧
    ((s1bpm.unpinPage 0 false).1.pages 0).isDirty = false ∧
    (s1bpm.unpinPage 0 false).1.replacer = s1bpm.replacer.setEvictable 0 true := by
  have h := C7_unpin_contract s1bpm 0 false
  have h2 := (h.2 0 (by decide)).2 (by decide)
  refine ⟨h2.1, ?_, h2.2.2.1, ?_⟩
  · rw [h2.2.1]
    decide
  · rw [h2.2.2.2, if_pos (by decide)]

/-- C8: refuted on the code.  In the two-frame pool, `DeletePage(0)` on
the unpinned resident page 0 returns `true` but leaves `0 ↦ frame 0` in
the page table; after page 5 is then fetched onto the freed frame 0
(data 105) and unpinned, `DeletePage(5)` returns `true`, leaves page 5
in the page table, zeroes the page-array entry at index `5` (the page
id, outside the two-frame pool) while frame 0's memory keeps 105; and
`DeletePage(7)` on a never-resident page id also returns `true` where
the claim requires `false`. -/
theorem C8_delete_page_divergences :
    t4del.2 = true ∧
    BPM.lookupPT t4del.1.pageTable 0 = some 0 ∧
    BPM.lookupPT t7del.1.pageTable 5 = some 0 ∧
    t7del.2 = true ∧
    (t7del.1.pages 0).data = 105 ∧
    (t7del.1.pages 5).data = 0 ∧
    (t7del.1.deletePage 7).2 = true := by
  decide

/-- C9: refuted on the code.  `Put` over an already-existing path
mutates an orphaned clone: after `t1 = Put(empty,[1,2],10)`, the trie
`t1.Put([1,2],20)` still yields 10 on `Get([1,2])`; and
`Put([1],10).Remove([1]).Get([1])` dereferences the null child pointer
`Remove` stored (outer `none`), instead of returning the miss result
`some none`; `Put([1,2],10).Remove([1,2]).Get([1,2])` even still
returns the value 10. -/
theorem C9_put_remove_get_violations :
    ((Trie0.put Trie0.empty [1, 2] 10).bind
        (fun t => Trie0.get t [1, 2])) = some (some 10) ∧
    (((Trie0.put Trie0.empty [1, 2] 10).bind
        (fun t => Trie0.put t [1, 2] 20)).bind
        (fun t => Trie0.get t [1, 2])) = some (some 10) ∧
    some (some 10) ≠ (some (some 20) : Option (Option Nat)) ∧
    (((Trie0.put Trie0.empty [1] 10).bind
        (fun t => Trie0.remove t [1])).bind
        (fun t => Trie0.get t [1])) = none ∧
    (((Trie0.put Trie0.empty [1, 2] 10).bind
        (fun t => Trie0.remove t [1, 2])).bind
        (fun t => Trie0.get t [1, 2])) = some (some 10) := by
  decide

/-- C10: refuted on the code.  On the empty bucket, `BinSearch` returns
0 = `size_`, and `Lookup` then compares `array_[0]` — one past the live
entries; since the garbage slot holds the probed key, `Lookup` reports
`true` on an empty bucket. -/
theorem C10_probe_reads_one_past_live_entries :
    bEmptyGarbage.size = 0 ∧
    bEmptyGarbage.binSearch 5 = 0 ∧
    ¬ bEmptyGarbage.binSearch 5 < bEmptyGarbage.size ∧
    bEmptyGarbage.lookup 5 = true := by
  decide

end Bustub
